import Mathlib

/-!
Shallow embedding of the Apple AIC interrupt-controller driver
(drivers/irqchip/irq-apple-aic.c) and proofs of the specification claims.

Machine integers are modelled as `Nat`; C's 32-bit complement `~v` on a
`u32` is modelled as `0xffffffff ^^^ v`, and 64-bit system-register
complement as `0xffffffffffffffff ^^^ v`.  Memory-mapped register regions
with write-1-to-set / write-1-to-clear semantics are modelled as functions
from word index to register value.
-/

/-- Constant `#define AIC_IPI_SEND_CPU(cpu) BIT(cpu)` -/
def AIC_IPI_SEND_CPU (cpu : Nat) : Nat := 1 <<< cpu

/-- Constant `#define AIC_IPI_OTHER BIT(0)` -/
def AIC_IPI_OTHER : Nat := 1

/-- Constant `#define AIC_IPI_SELF BIT(31)` -/
def AIC_IPI_SELF : Nat := 1 <<< 31

/-- Constant `#define MASK_REG(x) (4 * ((x) >> 5))` -/
def MASK_REG (x : Nat) : Nat := 4 * (x >>> 5)

/-- Constant `#define MASK_BIT(x) BIT((x) & 0x1f)` -/
def MASK_BIT (x : Nat) : Nat := 1 <<< (x &&& 0x1f)

/-- Constant `#define AIC_NR_FIQ 4` -/
def AIC_NR_FIQ : Nat := 4

/-- Constant `#define AIC_NR_SWIPI 32` -/
def AIC_NR_SWIPI : Nat := 32

/-- Constant `#define AIC_MAX_CPUS 31` — max 31 bits in the IPI SEND register
(top bit is self). -/
def AIC_MAX_CPUS : Nat := 31

/-- Constant `BITS_TO_U32(n)` = number of 32-bit words needed for `n` bits. -/
def BITS_TO_U32 (n : Nat) : Nat := (n + 31) / 32

/-- FIQ hwirq index: physical HV timer (`nr=0` in the DT binding comment). -/
def AIC_TMR_HV_PHYS : Nat := 0

/-- FIQ hwirq index: virtual HV timer (`nr=1`). -/
def AIC_TMR_HV_VIRT : Nat := 1

/-- FIQ hwirq index: physical guest timer (`nr=2`). -/
def AIC_TMR_GUEST_PHYS : Nat := 2

/-- FIQ hwirq index: virtual guest timer (`nr=3`). -/
def AIC_TMR_GUEST_VIRT : Nat := 3

/-- Modelled from the spec: architectural timer control register enable bit
(bit 0 of `CNTx_CTL`; the defining kernel header
`include/clocksource/arm_arch_timer.h` is not part of this tree). -/
def ARCH_TIMER_CTRL_ENABLE : Nat := 1

/-- Modelled from the spec: architectural timer interrupt-mask bit
(bit 1 of `CNTx_CTL`). -/
def ARCH_TIMER_CTRL_IT_MASK : Nat := 2

/-- Modelled from the spec: architectural timer interrupt-status bit
(bit 2 of `CNTx_CTL`). -/
def ARCH_TIMER_CTRL_IT_STAT : Nat := 4

/-- C 32-bit bitwise complement `(u32)~v`. -/
def u32_not (v : Nat) : Nat := 0xffffffff ^^^ v

/-- C 64-bit bitwise complement `(u64)~v` (system registers are 64-bit). -/
def u64_not (v : Nat) : Nat := 0xffffffffffffffff ^^^ v

/-- Macro `TIMER_FIRING(x)`: the timer is firing iff enabled, unmasked and its
status bit is set — literally
`(x & (ENABLE|IT_MASK|IT_STAT)) == (ENABLE|IT_STAT)`. -/
def TIMER_FIRING (x : Nat) : Bool :=
  (x &&& (ARCH_TIMER_CTRL_ENABLE ||| ARCH_TIMER_CTRL_IT_MASK |||
      ARCH_TIMER_CTRL_IT_STAT)) ==
    (ARCH_TIMER_CTRL_ENABLE ||| ARCH_TIMER_CTRL_IT_STAT)

/-!
Memory-mapped register block

`maskWord i` models the 32-bit word at `AIC_MASK_SET/CLR + 4*i` (one mask
bit per hardware line), `swWord i` the word at `AIC_SW_SET/CLR + 4*i`
(software-trigger bits), and `targetCpu n` the per-line register at
`AIC_TARGET_CPU + 4*n`.  The hardware mask and software-trigger regions are
write-1-to-set / write-1-to-clear.
-/

structure AicRegs where
  maskWord : Nat → Nat
  swWord : Nat → Nat
  targetCpu : Nat → Nat

/-- Write-1-to-set: writing `v` to word `w` ORs `v` into the stored word. -/
def w1s (r : Nat → Nat) (w v : Nat) : Nat → Nat :=
  Function.update r w (r w ||| v)

/-- Write-1-to-clear: writing `v` to word `w` clears the bits of `v`. -/
def w1c (r : Nat → Nat) (w v : Nat) : Nat → Nat :=
  Function.update r w (r w &&& u32_not v)

/-- Operation `aic_irq_mask`: write `MASK_BIT(hwirq)` to
`AIC_MASK_SET + MASK_REG(hwirq)` (word index `MASK_REG(hwirq)/4`). -/
def aic_irq_mask (hwirq : Nat) (s : AicRegs) : AicRegs :=
  { s with maskWord := w1s s.maskWord (MASK_REG hwirq / 4) (MASK_BIT hwirq) }

/-- Operation `aic_irq_unmask`: write `MASK_BIT(hwirq)` to
`AIC_MASK_CLR + MASK_REG(hwirq)`. -/
def aic_irq_unmask (hwirq : Nat) (s : AicRegs) : AicRegs :=
  { s with maskWord := w1c s.maskWord (MASK_REG hwirq / 4) (MASK_BIT hwirq) }

/-- Observable hardware mask bit of line `x` (bit `x mod 32` of mask word
`x div 32`). -/
def lineMasked (s : AicRegs) (x : Nat) : Bool :=
  (s.maskWord (x >>> 5)).testBit (x &&& 0x1f)

/-- Observable software-trigger bit of line `x`. -/
def swRaised (s : AicRegs) (x : Nat) : Bool :=
  (s.swWord (x >>> 5)).testBit (x &&& 0x1f)

/-- The upper-layer interrupt state consulted by the EOI paths:
`irqd_irq_disabled(d)` and `irqd_irq_masked(d)`. -/
structure IrqdState where
  disabled : Bool
  masked : Bool

/-- Operation `aic_irq_eoi`: reading the event register auto-masked the line, so
re-unmask it here unless it was meanwhile disabled or masked. -/
def aic_irq_eoi (d : IrqdState) (hwirq : Nat) (s : AicRegs) : AicRegs :=
  if !d.disabled && !d.masked then aic_irq_unmask hwirq s else s

/-- Helper `cpumask_first`: lowest set bit of the cpumask `m`, or `nr_cpu_ids`
when `m` has no set bit below `nr_cpu_ids`.  A cpumask is a bitmap over
CPU ids `0 .. nr_cpu_ids - 1`. -/
def cpumask_first (nr_cpu_ids : Nat) (m : Nat) : Nat :=
  ((List.range nr_cpu_ids).find? (fun i => m.testBit i)).getD nr_cpu_ids

/-- Helper `cpumask_any_and(m1, m2)` = `cpumask_first_and(m1, m2)`. -/
def cpumask_any_and (nr_cpu_ids : Nat) (m1 m2 : Nat) : Nat :=
  cpumask_first nr_cpu_ids (m1 &&& m2)

/-- Error code `-EINVAL` is returned as `-22`. -/
def EINVAL : Int := 22

/-- Return value `IRQ_SET_MASK_OK` (= 0). -/
def IRQ_SET_MASK_OK : Int := 0

/-- Operation `aic_irq_set_affinity`: reject with `-EINVAL` when `hwirq > nr_hw`;
else pick `cpu` = first CPU of the request (forced) or of request ∩ online,
write `BIT(cpu)` to the line's target register and record the effective
affinity.  Returns (return value, register state, effective affinity). -/
def aic_irq_set_affinity (nr_hw nr_cpu_ids hwirq : Nat)
    (mask_val online : Nat) (force : Bool) (s : AicRegs) :
    Int × AicRegs × Option Nat :=
  if hwirq > nr_hw then (-EINVAL, s, none)
  else
    let cpu := if force then cpumask_first nr_cpu_ids mask_val
               else cpumask_any_and nr_cpu_ids mask_val online
    (IRQ_SET_MASK_OK,
     { s with targetCpu := Function.update s.targetCpu hwirq (1 <<< cpu) },
     some cpu)

/-- Probe loop `for (i = 0; i < BITS_TO_U32(nr_hw); i++)
aic_ic_write(irqc, AIC_MASK_SET + i * 4, ~0)`. -/
def maskAllLoop : Nat → AicRegs → AicRegs
  | 0, s => s
  | Nat.succ n, s =>
    let t := maskAllLoop n s
    { t with maskWord := w1s t.maskWord n 0xffffffff }

/-- Probe loop `for (i = 0; i < BITS_TO_U32(nr_hw); i++)
aic_ic_write(irqc, AIC_SW_CLR + i * 4, ~0)`. -/
def swClrLoop : Nat → AicRegs → AicRegs
  | 0, s => s
  | Nat.succ n, s =>
    let t := swClrLoop n s
    { t with swWord := w1c t.swWord n 0xffffffff }

/-- Probe loop `for (i = 0; i < irqc->nr_hw; i++)
aic_ic_write(irqc, AIC_TARGET_CPU + i * 4, 1)`. -/
def targetLoop : Nat → AicRegs → AicRegs
  | 0, s => s
  | Nat.succ n, s =>
    let t := targetLoop n s
    { t with targetCpu := Function.update t.targetCpu n 1 }

/-- The three register-initialisation loops of `aic_of_ic_init`, in program
order. -/
def aic_probe_init (nr_hw : Nat) (s : AicRegs) : AicRegs :=
  targetLoop nr_hw (swClrLoop (BITS_TO_U32 nr_hw) (maskAllLoop (BITS_TO_U32 nr_hw) s))

/-!
Virtual IPI multiplexer

Per-CPU atomics `static atomic_t aic_vipi_flag[AIC_MAX_CPUS]` and
`aic_vipi_mask[AIC_MAX_CPUS]`, modelled as functions on `Fin AIC_MAX_CPUS`
(exactly 31 entries; no operation performs a runtime bound check, the
bound is a typing precondition).  Hardware writes performed by the IPI
operations are recorded explicitly.
-/

structure VipiState where
  flag : Fin AIC_MAX_CPUS → Nat
  mask : Fin AIC_MAX_CPUS → Nat

/-- A write to one of the per-CPU IPI hardware registers. -/
inductive AicHwWrite where
  | ipiAck (v : Nat)
  | ipiMaskSet (v : Nat)
  | ipiMaskClr (v : Nat)
  | ipiSend (v : Nat)
deriving DecidableEq

/-- Operation `aic_ipi_mask`: `atomic_and(~irq_bit, &aic_vipi_mask[this_cpu])`, then
mask the physical other-CPU IPI iff the mask word became zero. -/
def aic_ipi_mask (st : VipiState) (hwirq : Nat) (this_cpu : Fin AIC_MAX_CPUS) :
    VipiState × List AicHwWrite :=
  let irq_bit := 1 <<< hwirq
  let m := st.mask this_cpu &&& u32_not irq_bit
  ({ st with mask := Function.update st.mask this_cpu m },
   if m = 0 then [AicHwWrite.ipiMaskSet AIC_IPI_OTHER] else [])

/-- Operation `aic_ipi_unmask`: `atomic_or(irq_bit, &aic_vipi_mask[this_cpu])`, then
unconditionally clear the physical other-CPU IPI mask. -/
def aic_ipi_unmask (st : VipiState) (hwirq : Nat) (this_cpu : Fin AIC_MAX_CPUS) :
    VipiState × List AicHwWrite :=
  let irq_bit := 1 <<< hwirq
  ({ st with mask := Function.update st.mask this_cpu (st.mask this_cpu ||| irq_bit) },
   [AicHwWrite.ipiMaskClr AIC_IPI_OTHER])

/-- Loop body of `aic_ipi_send_mask` for one target CPU: if
`atomic_read(&aic_vipi_mask[cpu]) & irq_bit`, OR `irq_bit` into that CPU's
flag word and accumulate `AIC_IPI_SEND_CPU(cpu)` into `send`. -/
def sendStep (hwirq : Nat) (acc : VipiState × Nat) (cpu : Fin AIC_MAX_CPUS) :
    VipiState × Nat :=
  if acc.1.mask cpu &&& (1 <<< hwirq) ≠ 0 then
    ({ acc.1 with flag := Function.update acc.1.flag cpu (acc.1.flag cpu ||| (1 <<< hwirq)) },
     acc.2 ||| AIC_IPI_SEND_CPU cpu.val)
  else acc

/-- Operation `aic_ipi_send_mask`: for each target CPU whose vIPI mask word has the
channel bit, OR the bit into that CPU's flag word and record the CPU in
`send`; write `send` to `AIC_IPI_SEND` only when it is nonzero.  Returns
(new state, `send` bitmask, hardware writes). -/
def aic_ipi_send_mask (st : VipiState) (hwirq : Nat)
    (targets : List (Fin AIC_MAX_CPUS)) : VipiState × Nat × List AicHwWrite :=
  let r := targets.foldl (sendStep hwirq) (st, 0)
  (r.1, r.2, if r.2 ≠ 0 then [AicHwWrite.ipiSend r.2] else [])

/-- Operation `aic_handle_ipi` acting on the local CPU's flag word: ack the physical
IPI, `firing = atomic_xchg(&aic_vipi_flag[this_cpu], 0)`, dispatch every
set bit below `AIC_NR_SWIPI` in ascending order, then clear the physical
IPI mask.  Returns (dispatched channels, new flag word, hardware writes). -/
def aic_handle_ipi (flag : Nat) : List Nat × Nat × List AicHwWrite :=
  let firing := flag
  ((List.range AIC_NR_SWIPI).filter (fun i => firing.testBit i), 0,
   [AicHwWrite.ipiAck AIC_IPI_OTHER, AicHwWrite.ipiMaskClr AIC_IPI_OTHER])

/-- Fold a sequence of `aic_ipi_send_mask` calls (channel, target list)
over the vIPI state, keeping only the state. -/
def sendSeq (st : VipiState) (L : List (Nat × List (Fin AIC_MAX_CPUS))) :
    VipiState :=
  L.foldl (fun s p => (aic_ipi_send_mask s p.1 p.2).1) st

/-!
FIQ sources

System-register state touched by the FIQ paths.  The four timer control
registers are architectural and carried as raw values; the Apple-private
registers (`SYS_APL_IPI_SR`, `SYS_APL_PMCR0`, `SYS_APL_UPMCR0/UPMSR`,
`SYS_APL_VM_TMR_MASK`) come from a header (`asm/sysreg_apple.h`) that is
not part of this tree, so their fields are modelled from the spec: the
fast-IPI pending bit and the two PMC firing conditions
(interrupt-mode == FIQ and interrupt active) as booleans, and the
virtualization-timer-mask register as a raw value with two dedicated
bits. -/
structure FiqState where
  vgic_en : Bool
  ipi_sr_pending : Bool
  cntp_ctl : Nat
  cntv_ctl : Nat
  cntp_ctl_el02 : Nat
  cntv_ctl_el02 : Nat
  vm_tmr_mask : Nat
  pmc_fiq_firing : Bool
  upmc_fiq_firing : Bool

/-- Modelled from the spec: guest physical-timer bit of
`SYS_APL_VM_TMR_MASK` (header not in tree); a distinct single bit. -/
def VM_TMR_MASK_P : Nat := 1

/-- Modelled from the spec: guest virtual-timer bit of
`SYS_APL_VM_TMR_MASK`; a distinct single bit. -/
def VM_TMR_MASK_V : Nat := 2

/-- Operation `aic_fiq_mask`: only the guest timers have real mask bits;
`sysreg_clear_set_s(SYS_APL_VM_TMR_MASK, VM_TMR_MASK_x, 0)` clears the
bit.  All other FIQ sources are left untouched. -/
def aic_fiq_mask (hwirq : Nat) (f : FiqState) : FiqState :=
  if hwirq = AIC_TMR_GUEST_PHYS then
    { f with vm_tmr_mask := f.vm_tmr_mask &&& u64_not VM_TMR_MASK_P }
  else if hwirq = AIC_TMR_GUEST_VIRT then
    { f with vm_tmr_mask := f.vm_tmr_mask &&& u64_not VM_TMR_MASK_V }
  else f

/-- Operation `aic_fiq_unmask`: `sysreg_clear_set_s(SYS_APL_VM_TMR_MASK, 0,
VM_TMR_MASK_x)` sets the bit for the guest timers; no-op otherwise. -/
def aic_fiq_unmask (hwirq : Nat) (f : FiqState) : FiqState :=
  if hwirq = AIC_TMR_GUEST_PHYS then
    { f with vm_tmr_mask := f.vm_tmr_mask ||| VM_TMR_MASK_P }
  else if hwirq = AIC_TMR_GUEST_VIRT then
    { f with vm_tmr_mask := f.vm_tmr_mask ||| VM_TMR_MASK_V }
  else f

/-- Operation `aic_fiq_eoi`: we mask to ack (where we can), so unmask at EOI unless
the line is disabled or masked. -/
def aic_fiq_eoi (d : IrqdState) (hwirq : Nat) (f : FiqState) : FiqState :=
  if !d.disabled && !d.masked then aic_fiq_unmask hwirq f else f

/-- Operation `aic_handle_fiq`: poll every FIQ source.  Ack a pending fast IPI;
dispatch `nr_hw + timer` for each of the four timers whose control
register satisfies `TIMER_FIRING`; mask (mode off) a PMC or uncore PMC
whose FIQ fired.  Returns the new system-register state and the list of
dispatched hwirq numbers in program order. -/
def aic_handle_fiq (nr_hw : Nat) (f : FiqState) : FiqState × List Nat :=
  let f1 := if f.ipi_sr_pending then { f with ipi_sr_pending := false } else f
  let d :=
    (if TIMER_FIRING f.cntp_ctl then [nr_hw + AIC_TMR_HV_PHYS] else []) ++
    (if TIMER_FIRING f.cntv_ctl then [nr_hw + AIC_TMR_HV_VIRT] else []) ++
    (if TIMER_FIRING f.cntp_ctl_el02 then [nr_hw + AIC_TMR_GUEST_PHYS] else []) ++
    (if TIMER_FIRING f.cntv_ctl_el02 then [nr_hw + AIC_TMR_GUEST_VIRT] else [])
  let f2 := if f1.pmc_fiq_firing then { f1 with pmc_fiq_firing := false } else f1
  let f3 := if f2.upmc_fiq_firing then { f2 with upmc_fiq_firing := false } else f2
  (f3, d)

/-- Operation `aic_init_cpu`: mask every hard-wired per-CPU IRQ/FIQ source (vGIC
off, pending fast IPI cleared, `ARCH_TIMER_CTRL_IT_MASK` set in all four
timer control registers, PMC interrupt modes off), then
`WARN_ON(aic_ic_read(aic_irqc, AIC_WHOAMI) != smp_processor_id())` and
`return 0`.  Returns (new state, whether the WARN fired, return value). -/
def aic_init_cpu (whoami cpu : Nat) (f : FiqState) : FiqState × Bool × Int :=
  let f1 := { f with
    vgic_en := false,
    ipi_sr_pending := false,
    cntp_ctl := f.cntp_ctl ||| ARCH_TIMER_CTRL_IT_MASK,
    cntv_ctl := f.cntv_ctl ||| ARCH_TIMER_CTRL_IT_MASK,
    cntp_ctl_el02 := f.cntp_ctl_el02 ||| ARCH_TIMER_CTRL_IT_MASK,
    cntv_ctl_el02 := f.cntv_ctl_el02 ||| ARCH_TIMER_CTRL_IT_MASK,
    pmc_fiq_firing := false,
    upmc_fiq_firing := false }
  (f1, decide (whoami ≠ cpu), 0)

/-- An all-zero register block, used as a concrete start state. -/
def regs0 : AicRegs := ⟨fun _ => 0, fun _ => 0, fun _ => 0⟩

/-- A concrete quiescent FIQ system-register state. -/
def fiq0 : FiqState := ⟨false, false, 0, 0, 0, 0, 0, false, false⟩

/-- A concrete vIPI state: all flag words zero, every channel unmasked on
every CPU. -/
def vipiAllUnmasked : VipiState := ⟨fun _ => 0, fun _ => 0xffffffff⟩

/-- A concrete vIPI state: all flag words zero, every channel masked on
every CPU. -/
def vipiAllMasked : VipiState := ⟨fun _ => 0, fun _ => 0⟩

/-- Concrete CPU index 1. -/
def cpu1 : Fin AIC_MAX_CPUS := ⟨1, by decide⟩

/-!
Arithmetic helper lemmas
-/

theorem and_two_pow_sub_one (x n : Nat) : x &&& (2 ^ n - 1) = x % 2 ^ n := by
  apply Nat.eq_of_testBit_eq
  intro i
  rw [Nat.testBit_and, Nat.testBit_two_pow_sub_one, Nat.testBit_mod_two_pow]
  cases x.testBit i <;> simp

theorem and_31_eq_mod (x : Nat) : x &&& 0x1f = x % 32 := by
  have h := and_two_pow_sub_one x 5
  norm_num at h
  exact h

theorem shiftRight5_eq_div (x : Nat) : x >>> 5 = x / 32 := by
  rw [Nat.shiftRight_eq_div_pow]

theorem testBit_one_shiftLeft (n i : Nat) : (1 <<< n).testBit i = decide (n = i) := by
  rw [Nat.one_shiftLeft, Nat.testBit_two_pow]

theorem and_31_lt (x : Nat) : x &&& 0x1f < 32 := by
  rw [and_31_eq_mod]
  exact Nat.mod_lt _ (by norm_num)

theorem eq_iff_div32_mod32 (x y : Nat) : x = y ↔ (x / 32 = y / 32 ∧ x % 32 = y % 32) := by
  constructor
  · rintro rfl; exact ⟨rfl, rfl⟩
  · rintro ⟨hd, hm⟩
    have hx := Nat.div_add_mod x 32
    have hy := Nat.div_add_mod y 32
    omega

/-- Index `MASK_REG(x) / 4` is the mask-region word index of line `x`. -/
theorem mask_reg_word (x : Nat) : MASK_REG x / 4 = x / 32 := by
  unfold MASK_REG
  rw [shiftRight5_eq_div]
  omega

/-- Observable effect of `aic_irq_mask` on every line's mask bit. -/
theorem lineMasked_mask (x y : Nat) (s : AicRegs) :
    lineMasked (aic_irq_mask x s) y = (lineMasked s y || decide (y = x)) := by
  show ((Function.update s.maskWord (MASK_REG x / 4)
      (s.maskWord (MASK_REG x / 4) ||| MASK_BIT x)) (y >>> 5)).testBit (y &&& 0x1f) =
    (((s.maskWord (y >>> 5)).testBit (y &&& 0x1f)) || decide (y = x))
  rw [Function.update_apply]
  simp only [mask_reg_word, MASK_BIT, shiftRight5_eq_div, and_31_eq_mod]
  by_cases hw : y / 32 = x / 32
  · rw [if_pos hw, Nat.testBit_or, testBit_one_shiftLeft, hw]
    by_cases hb : y % 32 = x % 32
    · have hyx : y = x := (eq_iff_div32_mod32 y x).2 ⟨hw, hb⟩
      simp [hyx]
    · have hyx : y ≠ x := fun h => hb (by rw [h])
      have hxb : ¬ (x % 32 = y % 32) := fun h => hb h.symm
      simp [hyx, hxb]
  · rw [if_neg hw]
    have hyx : y ≠ x := fun h => hw (by rw [h])
    simp [hyx]

/-- Observable effect of `aic_irq_unmask` on every line's mask bit. -/
theorem lineMasked_unmask (x y : Nat) (s : AicRegs) :
    lineMasked (aic_irq_unmask x s) y = (lineMasked s y && !decide (y = x)) := by
  show ((Function.update s.maskWord (MASK_REG x / 4)
      (s.maskWord (MASK_REG x / 4) &&& u32_not (MASK_BIT x))) (y >>> 5)).testBit (y &&& 0x1f) =
    (((s.maskWord (y >>> 5)).testBit (y &&& 0x1f)) && !decide (y = x))
  rw [Function.update_apply]
  simp only [mask_reg_word, MASK_BIT, u32_not, shiftRight5_eq_div, and_31_eq_mod]
  by_cases hw : y / 32 = x / 32
  · rw [if_pos hw, Nat.testBit_and, Nat.testBit_xor, testBit_one_shiftLeft, hw]
    have hff : (0xffffffff : Nat) = 2 ^ 32 - 1 := by norm_num
    rw [hff, Nat.testBit_two_pow_sub_one]
    have hlt : y % 32 < 32 := Nat.mod_lt _ (by norm_num)
    by_cases hb : y % 32 = x % 32
    · have hyx : y = x := (eq_iff_div32_mod32 y x).2 ⟨hw, hb⟩
      have hltx : x % 32 < 32 := Nat.mod_lt _ (by norm_num)
      simp [hyx, hb, hlt, hltx]
    · have hyx : y ≠ x := fun h => hb (by rw [h])
      have hxb : ¬ (x % 32 = y % 32) := fun h => hb h.symm
      simp [hyx, hxb, hlt]
  · rw [if_neg hw]
    have hyx : y ≠ x := fun h => hw (by rw [h])
    simp [hyx]

/-!
Probe-initialisation loop lemmas
-/

theorem maskAllLoop_maskWord (n : Nat) (s : AicRegs) (w : Nat) :
    (maskAllLoop n s).maskWord w =
      if w < n then s.maskWord w ||| 0xffffffff else s.maskWord w := by
  induction n with
  | zero => simp [maskAllLoop]
  | succ n ih =>
    show (Function.update (maskAllLoop n s).maskWord n
        ((maskAllLoop n s).maskWord n ||| 0xffffffff)) w = _
    rw [Function.update_apply]
    by_cases hw : w = n
    · subst hw
      rw [if_pos rfl, ih, if_neg (Nat.lt_irrefl _), if_pos (Nat.lt_succ_self _)]
    · rw [if_neg hw, ih]
      by_cases hlt : w < n
      · rw [if_pos hlt, if_pos (by omega)]
      · rw [if_neg hlt, if_neg (by omega)]

theorem maskAllLoop_swWord (n : Nat) (s : AicRegs) :
    (maskAllLoop n s).swWord = s.swWord := by
  induction n with
  | zero => rfl
  | succ n ih => exact ih

theorem maskAllLoop_targetCpu (n : Nat) (s : AicRegs) :
    (maskAllLoop n s).targetCpu = s.targetCpu := by
  induction n with
  | zero => rfl
  | succ n ih => exact ih

theorem swClrLoop_swWord (n : Nat) (s : AicRegs) (w : Nat) :
    (swClrLoop n s).swWord w = if w < n then 0 else s.swWord w := by
  induction n with
  | zero => simp [swClrLoop]
  | succ n ih =>
    show (Function.update (swClrLoop n s).swWord n
        ((swClrLoop n s).swWord n &&& u32_not 0xffffffff)) w = _
    have hz : u32_not 0xffffffff = 0 := Nat.xor_self _
    rw [Function.update_apply, hz]
    by_cases hw : w = n
    · subst hw
      rw [if_pos rfl, Nat.and_zero, if_pos (Nat.lt_succ_self _)]
    · rw [if_neg hw, ih]
      by_cases hlt : w < n
      · rw [if_pos hlt, if_pos (by omega)]
      · rw [if_neg hlt, if_neg (by omega)]

theorem swClrLoop_maskWord (n : Nat) (s : AicRegs) :
    (swClrLoop n s).maskWord = s.maskWord := by
  induction n with
  | zero => rfl
  | succ n ih => exact ih

theorem swClrLoop_targetCpu (n : Nat) (s : AicRegs) :
    (swClrLoop n s).targetCpu = s.targetCpu := by
  induction n with
  | zero => rfl
  | succ n ih => exact ih

theorem targetLoop_targetCpu (n : Nat) (s : AicRegs) (w : Nat) :
    (targetLoop n s).targetCpu w = if w < n then 1 else s.targetCpu w := by
  induction n with
  | zero => simp [targetLoop]
  | succ n ih =>
    show (Function.update (targetLoop n s).targetCpu n 1) w = _
    rw [Function.update_apply]
    by_cases hw : w = n
    · subst hw
      rw [if_pos rfl, if_pos (Nat.lt_succ_self _)]
    · rw [if_neg hw, ih]
      by_cases hlt : w < n
      · rw [if_pos hlt, if_pos (by omega)]
      · rw [if_neg hlt, if_neg (by omega)]

theorem targetLoop_maskWord (n : Nat) (s : AicRegs) :
    (targetLoop n s).maskWord = s.maskWord := by
  induction n with
  | zero => rfl
  | succ n ih => exact ih

theorem targetLoop_swWord (n : Nat) (s : AicRegs) :
    (targetLoop n s).swWord = s.swWord := by
  induction n with
  | zero => rfl
  | succ n ih => exact ih

/-- Macro `TIMER_FIRING` in terms of the three control bits: enable set,
interrupt-mask clear, status set. -/
theorem TIMER_FIRING_iff (x : Nat) :
    TIMER_FIRING x = true ↔
      (x.testBit 0 = true ∧ x.testBit 1 = false ∧ x.testBit 2 = true) := by
  show ((x &&& 7) == 5) = true ↔ _
  rw [beq_iff_eq]
  have h7 : x &&& 7 = x % 8 := by
    have h := and_two_pow_sub_one x 3
    norm_num at h
    exact h
  have hb0 : (x % 8).testBit 0 = x.testBit 0 := by
    simpa using Nat.testBit_mod_two_pow x 3 0
  have hb1 : (x % 8).testBit 1 = x.testBit 1 := by
    simpa using Nat.testBit_mod_two_pow x 3 1
  have hb2 : (x % 8).testBit 2 = x.testBit 2 := by
    simpa using Nat.testBit_mod_two_pow x 3 2
  rw [h7, ← hb0, ← hb1, ← hb2]
  have h8 : x % 8 < 8 := Nat.mod_lt _ (by norm_num)
  generalize hm : x % 8 = m
  rw [hm] at h8
  interval_cases m <;> decide

/-- C5: a fast-interrupt poll dispatches each architectural timer exactly
once iff its control/status register satisfies `TIMER_FIRING`, and
`TIMER_FIRING` holds iff the enable bit is set, the interrupt-mask bit is
clear and the status bit is set simultaneously.  An enabled-but-masked
timer (mask bit set) is never dispatched. -/
theorem C5_fiq_timer_firing (nr_hw : Nat) (f : FiqState) :
    ((aic_handle_fiq nr_hw f).2.count (nr_hw + AIC_TMR_HV_PHYS) =
       if TIMER_FIRING f.cntp_ctl then 1 else 0) ∧
    ((aic_handle_fiq nr_hw f).2.count (nr_hw + AIC_TMR_HV_VIRT) =
       if TIMER_FIRING f.cntv_ctl then 1 else 0) ∧
    ((aic_handle_fiq nr_hw f).2.count (nr_hw + AIC_TMR_GUEST_PHYS) =
       if TIMER_FIRING f.cntp_ctl_el02 then 1 else 0) ∧
    ((aic_handle_fiq nr_hw f).2.count (nr_hw + AIC_TMR_GUEST_VIRT) =
       if TIMER_FIRING f.cntv_ctl_el02 then 1 else 0) ∧
    (∀ x : Nat, TIMER_FIRING x = true ↔
       (x.testBit 0 = true ∧ x.testBit 1 = false ∧ x.testBit 2 = true)) := by
  refine ⟨?_, ?_, ?_, ?_, TIMER_FIRING_iff⟩ <;>
  · cases h1 : TIMER_FIRING f.cntp_ctl <;>
    cases h2 : TIMER_FIRING f.cntv_ctl <;>
    cases h3 : TIMER_FIRING f.cntp_ctl_el02 <;>
    cases h4 : TIMER_FIRING f.cntv_ctl_el02 <;>
    simp [aic_handle_fiq, h1, h2, h3, h4, List.count_append, List.count_cons,
      List.count_nil, AIC_TMR_HV_PHYS, AIC_TMR_HV_VIRT, AIC_TMR_GUEST_PHYS,
      AIC_TMR_GUEST_VIRT]

/-- C8: after the probe register-initialisation loops, every hardware line
`x < nr_hw` has its mask bit set, its software-trigger bit clear, and its
target-CPU register equal to exactly 1 (bit for CPU 0, no other bits). -/
theorem C8_probe_init_state (nr_hw x : Nat) (s : AicRegs) (hx : x < nr_hw) :
    lineMasked (aic_probe_init nr_hw s) x = true ∧
    swRaised (aic_probe_init nr_hw s) x = false ∧
    (aic_probe_init nr_hw s).targetCpu x = 1 := by
  have hdiv : x / 32 < BITS_TO_U32 nr_hw := by
    unfold BITS_TO_U32
    omega
  refine ⟨?_, ?_, ?_⟩
  · unfold aic_probe_init lineMasked
    rw [targetLoop_maskWord, swClrLoop_maskWord, shiftRight5_eq_div,
      maskAllLoop_maskWord, if_pos hdiv, and_31_eq_mod, Nat.testBit_or]
    have hff : (0xffffffff : Nat) = 2 ^ 32 - 1 := by norm_num
    rw [hff, Nat.testBit_two_pow_sub_one]
    have hlt : x % 32 < 32 := Nat.mod_lt _ (by norm_num)
    simp [hlt]
  · unfold aic_probe_init swRaised
    rw [targetLoop_swWord, shiftRight5_eq_div, swClrLoop_swWord, if_pos hdiv]
    simp
  · unfold aic_probe_init
    rw [targetLoop_targetCpu, if_pos hx]

/-- C8 witness at the spec scenario `nr_hw = 896`, line 895. -/
theorem C8_probe_init_state_witness :
    (895 : Nat) < 896 ∧
    (lineMasked (aic_probe_init 896 regs0) 895 = true ∧
     swRaised (aic_probe_init 896 regs0) 895 = false ∧
     (aic_probe_init 896 regs0).targetCpu 895 = 1) :=
  ⟨by decide, C8_probe_init_state 896 895 regs0 (by decide)⟩

/-- C9: hardware-line mask and unmask are idempotent — masking an
already-masked line, or unmasking an already-unmasked line, leaves every
line's observable mask bit unchanged. -/
theorem C9_mask_unmask_idempotent (s : AicRegs) (x : Nat) :
    (lineMasked s x = true →
      ∀ y, lineMasked (aic_irq_mask x s) y = lineMasked s y) ∧
    (lineMasked s x = false →
      ∀ y, lineMasked (aic_irq_unmask x s) y = lineMasked s y) := by
  constructor
  · intro h y
    rw [lineMasked_mask]
    by_cases hyx : y = x
    · subst hyx
      simp [h]
    · simp [hyx]
  · intro h y
    rw [lineMasked_unmask]
    by_cases hyx : y = x
    · subst hyx
      simp [h]
    · simp [hyx]

/-- C9 witness: re-masking masked line 5 and re-unmasking unmasked line 7
leave concrete observable bits unchanged. -/
theorem C9_mask_unmask_idempotent_witness :
    (lineMasked (aic_irq_mask 5 regs0) 5 = true ∧
     lineMasked (aic_irq_mask 5 (aic_irq_mask 5 regs0)) 9 =
       lineMasked (aic_irq_mask 5 regs0) 9) ∧
    (lineMasked regs0 7 = false ∧
     lineMasked (aic_irq_unmask 7 regs0) 7 = lineMasked regs0 7) :=
  ⟨⟨by decide, (C9_mask_unmask_idempotent (aic_irq_mask 5 regs0) 5).1 (by decide) 9⟩,
   ⟨by decide, (C9_mask_unmask_idempotent regs0 7).2 (by decide) 7⟩⟩

/-- C4: the EOI paths re-unmask iff the line is neither disabled nor
masked by upper layers; otherwise they leave all state untouched.  For the
hardware-IRQ path this clears exactly the line's own mask bit; for the FIQ
path it performs exactly `aic_fiq_unmask`. -/
theorem C4_eoi_reunmask_iff (d : IrqdState) (x : Nat) (s : AicRegs) (f : FiqState) :
    (d.disabled = false ∧ d.masked = false →
      (∀ y, lineMasked (aic_irq_eoi d x s) y = (lineMasked s y && !decide (y = x))) ∧
      aic_fiq_eoi d x f = aic_fiq_unmask x f) ∧
    (d.disabled = true ∨ d.masked = true →
      aic_irq_eoi d x s = s ∧ aic_fiq_eoi d x f = f) := by
  constructor
  · rintro ⟨h1, h2⟩
    unfold aic_irq_eoi aic_fiq_eoi
    simp [h1, h2, lineMasked_unmask]
  · intro h
    unfold aic_irq_eoi aic_fiq_eoi
    rcases h with h | h <;> simp [h]

/-- C4 witness: with line 3 auto-masked, EOI on an enabled line unmasks
bit 3; EOI on a disabled line leaves the state alone. -/
theorem C4_eoi_reunmask_iff_witness :
    (lineMasked (aic_irq_eoi ⟨false, false⟩ 3 (aic_irq_mask 3 regs0)) 3 =
       (lineMasked (aic_irq_mask 3 regs0) 3 && !decide ((3 : Nat) = 3))) ∧
    (aic_irq_eoi ⟨true, false⟩ 3 (aic_irq_mask 3 regs0) = aic_irq_mask 3 regs0) :=
  ⟨((C4_eoi_reunmask_iff ⟨false, false⟩ 3 (aic_irq_mask 3 regs0) fiq0).1
      ⟨rfl, rfl⟩).1 3,
   ((C4_eoi_reunmask_iff ⟨true, false⟩ 3 (aic_irq_mask 3 regs0) fiq0).2
      (Or.inl rfl)).1⟩

/-- C10: the virtual-IPI multiplexer is sized for at most 31 CPUs —
`AIC_MAX_CPUS = 31` (the index type of the per-CPU flag/mask arrays), the
physical send register encodes one CPU per bit injectively, and bit 31 is
exactly the self-IPI bit, so a CPU index collides with the self bit iff it
is 31. -/
theorem C10_max_cpus_bound :
    AIC_MAX_CPUS = 31 ∧
    (∀ c : Nat, AIC_IPI_SEND_CPU c = AIC_IPI_SELF ↔ c = 31) ∧
    (∀ c : Fin AIC_MAX_CPUS, AIC_IPI_SEND_CPU c.val &&& AIC_IPI_SELF = 0) ∧
    (∀ c1 c2 : Nat, AIC_IPI_SEND_CPU c1 = AIC_IPI_SEND_CPU c2 → c1 = c2) := by
  refine ⟨rfl, ?_, ?_, ?_⟩
  · intro c
    unfold AIC_IPI_SEND_CPU AIC_IPI_SELF
    rw [Nat.one_shiftLeft, Nat.one_shiftLeft]
    constructor
    · intro h
      exact Nat.pow_right_injective (by norm_num) h
    · rintro rfl
      rfl
  · intro c
    have hc : c.val < 31 := c.isLt
    unfold AIC_IPI_SEND_CPU AIC_IPI_SELF
    apply Nat.eq_of_testBit_eq
    intro i
    rw [Nat.testBit_and, testBit_one_shiftLeft, testBit_one_shiftLeft]
    by_cases h31 : (31 : Nat) = i
    · have : c.val ≠ i := by omega
      simp [this]
    · simp [h31]
  · intro c1 c2 h
    unfold AIC_IPI_SEND_CPU at h
    rw [Nat.one_shiftLeft, Nat.one_shiftLeft] at h
    exact Nat.pow_right_injective (by norm_num) h

/-- C10 witness: CPU 30 is representable without touching the self bit,
and send-bit injectivity at a concrete pair. -/
theorem C10_max_cpus_bound_witness :
    (AIC_IPI_SEND_CPU 30 &&& AIC_IPI_SELF = 0) ∧ (7 : Nat) = 7 :=
  ⟨C10_max_cpus_bound.2.2.1 ⟨30, by decide⟩,
   C10_max_cpus_bound.2.2.2 7 7 (by decide)⟩

/-- Setting the architectural interrupt-mask bit makes `TIMER_FIRING`
false whatever the rest of the register holds. -/
theorem TIMER_FIRING_masked (x : Nat) :
    TIMER_FIRING (x ||| ARCH_TIMER_CTRL_IT_MASK) = false := by
  rw [Bool.eq_false_iff]
  intro h
  obtain ⟨h0, h1, h2⟩ := (TIMER_FIRING_iff _).1 h
  rw [Nat.testBit_or] at h1
  have hm : (ARCH_TIMER_CTRL_IT_MASK).testBit 1 = true := by decide
  rw [hm, Bool.or_true] at h1
  simp at h1

/-- C7 counterexample: at cold-start with hardware WHOAMI = 1 on logical
CPU 0 (an identity mismatch), the callback fires the warning yet still
returns 0 — it reports success for that CPU, so the mismatch is not
treated as fatal. -/
theorem C7_counterexample :
    (aic_init_cpu 1 0 fiq0).2.1 = true ∧ (aic_init_cpu 1 0 fiq0).2.2 = 0 := by
  decide

/-- C7 (amended): the cold-start callback masks every local FIQ source (no
timer can be firing afterwards, the pending fast IPI and PMC modes are
cleared), warns exactly when the hardware WHOAMI disagrees with the
logical CPU number, and returns success (0) unconditionally — the
mismatch produces a loud warning, not a fatal error. -/
theorem C7_init_cpu_warns_returns_success (whoami cpu : Nat) (f : FiqState) :
    (aic_init_cpu whoami cpu f).2.2 = 0 ∧
    ((aic_init_cpu whoami cpu f).2.1 = true ↔ whoami ≠ cpu) ∧
    TIMER_FIRING (aic_init_cpu whoami cpu f).1.cntp_ctl = false ∧
    TIMER_FIRING (aic_init_cpu whoami cpu f).1.cntv_ctl = false ∧
    TIMER_FIRING (aic_init_cpu whoami cpu f).1.cntp_ctl_el02 = false ∧
    TIMER_FIRING (aic_init_cpu whoami cpu f).1.cntv_ctl_el02 = false ∧
    (aic_init_cpu whoami cpu f).1.ipi_sr_pending = false ∧
    (aic_init_cpu whoami cpu f).1.pmc_fiq_firing = false ∧
    (aic_init_cpu whoami cpu f).1.upmc_fiq_firing = false ∧
    (aic_init_cpu whoami cpu f).1.vgic_en = false := by
  refine ⟨rfl, ?_, TIMER_FIRING_masked _, TIMER_FIRING_masked _,
    TIMER_FIRING_masked _, TIMER_FIRING_masked _, rfl, rfl, rfl, rfl⟩
  show (decide (whoami ≠ cpu) = true) ↔ whoami ≠ cpu
  simp

/-- C6: `aic_ipi_mask` clears exactly the channel bit in the calling CPU's
own mask word and writes the hardware mask-set register for the physical
other-CPU IPI iff the resulting word is entirely zero; `aic_ipi_unmask`
sets the bit and writes the hardware mask-clear register on every call.
Neither touches any other CPU's word nor any flag word. -/
theorem C6_ipi_mask_unmask (st : VipiState) (c : Nat) (cpu : Fin AIC_MAX_CPUS)
    (hc : c < AIC_NR_SWIPI) :
    (∀ i, i < 32 →
      ((aic_ipi_mask st c cpu).1.mask cpu).testBit i =
        (((st.mask cpu).testBit i) && !decide (i = c))) ∧
    (∀ q, q ≠ cpu → (aic_ipi_mask st c cpu).1.mask q = st.mask q) ∧
    ((aic_ipi_mask st c cpu).1.flag = st.flag) ∧
    ((aic_ipi_mask st c cpu).2 = [AicHwWrite.ipiMaskSet AIC_IPI_OTHER] ↔
      (aic_ipi_mask st c cpu).1.mask cpu = 0) ∧
    ((aic_ipi_mask st c cpu).2 = [] ↔ (aic_ipi_mask st c cpu).1.mask cpu ≠ 0) ∧
    (∀ i, ((aic_ipi_unmask st c cpu).1.mask cpu).testBit i =
      (((st.mask cpu).testBit i) || decide (i = c))) ∧
    (∀ q, q ≠ cpu → (aic_ipi_unmask st c cpu).1.mask q = st.mask q) ∧
    ((aic_ipi_unmask st c cpu).1.flag = st.flag) ∧
    ((aic_ipi_unmask st c cpu).2 = [AicHwWrite.ipiMaskClr AIC_IPI_OTHER]) := by
  have hmaskval : (aic_ipi_mask st c cpu).1.mask cpu =
      st.mask cpu &&& u32_not (1 <<< c) := by
    show (Function.update st.mask cpu (st.mask cpu &&& u32_not (1 <<< c))) cpu = _
    rw [Function.update_same]
  refine ⟨?_, ?_, rfl, ?_, ?_, ?_, ?_, rfl, rfl⟩
  · intro i hi
    rw [hmaskval]
    unfold u32_not
    rw [Nat.testBit_and, Nat.testBit_xor, testBit_one_shiftLeft]
    have hff : (0xffffffff : Nat) = 2 ^ 32 - 1 := by norm_num
    rw [hff, Nat.testBit_two_pow_sub_one]
    have hc32 : c < 32 := hc
    by_cases hic : i = c
    · simp [hic, hi, hc32]
    · have : ¬ (c = i) := fun h => hic h.symm
      simp [hic, this, hi]
  · intro q hq
    show (Function.update st.mask cpu (st.mask cpu &&& u32_not (1 <<< c))) q = _
    rw [Function.update_noteq hq]
  · show (if st.mask cpu &&& u32_not (1 <<< c) = 0 then
        [AicHwWrite.ipiMaskSet AIC_IPI_OTHER] else []) =
        [AicHwWrite.ipiMaskSet AIC_IPI_OTHER] ↔ _
    rw [hmaskval]
    by_cases hz : st.mask cpu &&& u32_not (1 <<< c) = 0 <;> simp [hz]
  · show (if st.mask cpu &&& u32_not (1 <<< c) = 0 then
        [AicHwWrite.ipiMaskSet AIC_IPI_OTHER] else []) = [] ↔ _
    rw [hmaskval]
    by_cases hz : st.mask cpu &&& u32_not (1 <<< c) = 0 <;> simp [hz]
  · intro i
    show ((Function.update st.mask cpu (st.mask cpu ||| (1 <<< c))) cpu).testBit i = _
    rw [Function.update_same, Nat.testBit_or, testBit_one_shiftLeft]
    by_cases hic : i = c
    · simp [hic]
    · have : ¬ (c = i) := fun h => hic h.symm
      simp [hic, this]
  · intro q hq
    show (Function.update st.mask cpu (st.mask cpu ||| (1 <<< c))) q = _
    rw [Function.update_noteq hq]

/-- C6 witness: channel 3 on CPU 1 in a concrete state. -/
theorem C6_ipi_mask_unmask_witness :
    (3 : Nat) < AIC_NR_SWIPI ∧
    ((aic_ipi_mask vipiAllUnmasked 3 cpu1).1.mask cpu1).testBit 3 =
      (((vipiAllUnmasked.mask cpu1).testBit 3) && !decide ((3 : Nat) = 3)) ∧
    (aic_ipi_unmask vipiAllMasked 3 cpu1).2 = [AicHwWrite.ipiMaskClr AIC_IPI_OTHER] :=
  ⟨by decide,
   (C6_ipi_mask_unmask vipiAllUnmasked 3 cpu1 (by decide)).1 3 (by decide),
   (C6_ipi_mask_unmask vipiAllMasked 3 cpu1 (by decide)).2.2.2.2.2.2.2.2⟩

theorem or_eq_zero_iff_nat (a b : Nat) : a ||| b = 0 ↔ (a = 0 ∧ b = 0) := by
  constructor
  · intro h
    have ht : ∀ i, (a.testBit i || b.testBit i) = false := by
      intro i
      have hc := congrArg (fun x => Nat.testBit x i) h
      simpa [Nat.testBit_or] using hc
    constructor
    · apply Nat.eq_of_testBit_eq
      intro i
      have h2 := ht i
      rw [Bool.or_eq_false_iff] at h2
      simp [h2.1]
    · apply Nat.eq_of_testBit_eq
      intro i
      have h2 := ht i
      rw [Bool.or_eq_false_iff] at h2
      simp [h2.2]
  · rintro ⟨rfl, rfl⟩
    rfl

theorem VipiState_mk_flag (f m : Fin AIC_MAX_CPUS → Nat) :
    (VipiState.mk f m).flag = f := rfl

theorem VipiState_mk_mask (f m : Fin AIC_MAX_CPUS → Nat) :
    (VipiState.mk f m).mask = m := rfl

/-- Full characterisation of the `aic_ipi_send_mask` target loop: the mask
words are untouched; a CPU's flag word gains the channel bit exactly when
it is targeted with the channel unmasked; the accumulated `send` word is
zero iff it started zero and no targeted CPU had the channel unmasked. -/
theorem sendFold_spec (c : Nat) (targets : List (Fin AIC_MAX_CPUS)) :
    ∀ (s : VipiState) (n : Nat),
      ((targets.foldl (sendStep c) (s, n)).1.mask = s.mask) ∧
      (∀ q, (targets.foldl (sendStep c) (s, n)).1.flag q =
        if q ∈ targets ∧ s.mask q &&& (1 <<< c) ≠ 0
        then s.flag q ||| (1 <<< c) else s.flag q) ∧
      ((targets.foldl (sendStep c) (s, n)).2 = 0 ↔
        (n = 0 ∧ ∀ q ∈ targets, s.mask q &&& (1 <<< c) = 0)) := by
  induction targets with
  | nil =>
    intro s n
    refine ⟨rfl, ?_, ?_⟩
    · intro q
      simp
    · simp
  | cons t ts ih =>
    intro s n
    rw [List.foldl_cons]
    by_cases ht : s.mask t &&& (1 <<< c) ≠ 0
    · have hstep : sendStep c (s, n) t =
        ({ s with flag := Function.update s.flag t (s.flag t ||| (1 <<< c)) },
         n ||| AIC_IPI_SEND_CPU t.val) := by
        unfold sendStep
        rw [if_pos ht]
      rw [hstep]
      obtain ⟨ihm, ihf, ihz⟩ :=
        ih { s with flag := Function.update s.flag t (s.flag t ||| (1 <<< c)) }
          (n ||| AIC_IPI_SEND_CPU t.val)
      simp only [VipiState_mk_flag, VipiState_mk_mask] at ihm ihf ihz
      refine ⟨ihm, ?_, ?_⟩
      · intro q
        rw [ihf q]
        by_cases hq : q = t
        · subst hq
          by_cases hmem : q ∈ ts
          · rw [if_pos ⟨hmem, ht⟩, Function.update_same,
              if_pos ⟨List.mem_cons_self q ts, ht⟩, Nat.or_assoc, Nat.or_self]
          · rw [if_neg (fun h => hmem h.1), Function.update_same,
              if_pos ⟨List.mem_cons_self q ts, ht⟩]
        · have hupd : Function.update s.flag t (s.flag t ||| (1 <<< c)) q = s.flag q :=
            Function.update_noteq hq _ _
          by_cases hcond : q ∈ ts ∧ s.mask q &&& (1 <<< c) ≠ 0
          · rw [if_pos hcond, hupd, if_pos ⟨List.mem_cons_of_mem _ hcond.1, hcond.2⟩]
          · rw [if_neg hcond, hupd, if_neg ?_]
            rintro ⟨hmem, hmask⟩
            rcases List.mem_cons.1 hmem with h | h
            · exact hq h
            · exact hcond ⟨h, hmask⟩
      · rw [ihz]
        constructor
        · rintro ⟨hor, _⟩
          have hz := (or_eq_zero_iff_nat _ _).1 hor
          have hne : AIC_IPI_SEND_CPU t.val ≠ 0 := by
            unfold AIC_IPI_SEND_CPU
            rw [Nat.one_shiftLeft]
            exact (pow_pos (by norm_num : (0:Nat) < 2) _).ne'
          exact absurd hz.2 hne
        · rintro ⟨rfl, hall⟩
          exact absurd (hall t (List.mem_cons_self _ _)) ht
    · have hstep : sendStep c (s, n) t = (s, n) := by
        unfold sendStep
        rw [if_neg ht]
      rw [hstep]
      have ht0 : s.mask t &&& (1 <<< c) = 0 := not_ne_iff.1 ht
      obtain ⟨ihm, ihf, ihz⟩ := ih s n
      refine ⟨ihm, ?_, ?_⟩
      · intro q
        rw [ihf q]
        by_cases hq : q = t
        · subst hq
          rw [if_neg (fun h => ht h.2), if_neg (fun h => ht h.2)]
        · by_cases hcond : q ∈ ts ∧ s.mask q &&& (1 <<< c) ≠ 0
          · rw [if_pos hcond, if_pos ⟨List.mem_cons_of_mem _ hcond.1, hcond.2⟩]
          · rw [if_neg hcond, if_neg ?_]
            rintro ⟨hmem, hmask⟩
            rcases List.mem_cons.1 hmem with h | h
            · exact hq h
            · exact hcond ⟨h, hmask⟩
      · rw [ihz]
        constructor
        · rintro ⟨h1, h2⟩
          refine ⟨h1, fun q hq => ?_⟩
          rcases List.mem_cons.1 hq with h | h
          · rw [h]
            exact ht0
          · exact h2 q h
        · rintro ⟨h1, h2⟩
          exact ⟨h1, fun q hq => h2 q (List.mem_cons_of_mem _ hq)⟩

/-- C2: `aic_ipi_send_mask` sets the channel flag bit only in flag words
of targeted CPUs whose mask word has the channel bit; if no targeted CPU
has the channel unmasked, the physical-send bitmask is zero, no hardware
send write occurs, and every CPU's flag word is unchanged. -/
theorem C2_send_respects_mask (st : VipiState) (c : Nat)
    (targets : List (Fin AIC_MAX_CPUS)) :
    ((aic_ipi_send_mask st c targets).1.mask = st.mask) ∧
    (∀ q, q ∉ targets → (aic_ipi_send_mask st c targets).1.flag q = st.flag q) ∧
    (∀ q, st.mask q &&& (1 <<< c) = 0 →
      (aic_ipi_send_mask st c targets).1.flag q = st.flag q) ∧
    (∀ q, q ∈ targets → st.mask q &&& (1 <<< c) ≠ 0 →
      (aic_ipi_send_mask st c targets).1.flag q = st.flag q ||| (1 <<< c)) ∧
    ((∀ q, q ∈ targets → st.mask q &&& (1 <<< c) = 0) →
      ((aic_ipi_send_mask st c targets).2.1 = 0 ∧
       (aic_ipi_send_mask st c targets).2.2 = [] ∧
       ∀ q, (aic_ipi_send_mask st c targets).1.flag q = st.flag q)) ∧
    ((aic_ipi_send_mask st c targets).2.2 = [] ↔
      (aic_ipi_send_mask st c targets).2.1 = 0) := by
  obtain ⟨hm, hf, hz⟩ := sendFold_spec c targets st 0
  have h1 : (aic_ipi_send_mask st c targets).1 =
      (targets.foldl (sendStep c) (st, 0)).1 := rfl
  have h21 : (aic_ipi_send_mask st c targets).2.1 =
      (targets.foldl (sendStep c) (st, 0)).2 := rfl
  have h22 : (aic_ipi_send_mask st c targets).2.2 =
      (if (targets.foldl (sendStep c) (st, 0)).2 ≠ 0 then
        [AicHwWrite.ipiSend (targets.foldl (sendStep c) (st, 0)).2] else []) := rfl
  refine ⟨?_, ?_, ?_, ?_, ?_, ?_⟩
  · rw [h1, hm]
  · intro q hq
    rw [h1, hf q, if_neg (fun h => hq h.1)]
  · intro q hq
    rw [h1, hf q, if_neg (fun h => h.2 hq)]
  · intro q hq hmask
    rw [h1, hf q, if_pos ⟨hq, hmask⟩]
  · intro hall
    have hz0 : (targets.foldl (sendStep c) (st, 0)).2 = 0 :=
      hz.2 ⟨rfl, fun q hq => hall q hq⟩
    refine ⟨by rw [h21, hz0], ?_, ?_⟩
    · rw [h22, hz0]
      simp
    · intro q
      rw [h1, hf q]
      by_cases hq : q ∈ targets
      · rw [if_neg (fun h => h.2 (hall q hq))]
      · rw [if_neg (fun h => hq h.1)]
  · rw [h21, h22]
    by_cases hz0 : (targets.foldl (sendStep c) (st, 0)).2 = 0 <;> simp [hz0]

/-- C2 witness: the spec scenario — channel 3 to CPU 1.  With the channel
unmasked the flag bit is ORed in; with CPU 1's mask word zero the send
bitmask is zero and CPU 1's flag word stays zero. -/
theorem C2_send_respects_mask_witness :
    ((aic_ipi_send_mask vipiAllUnmasked 3 [cpu1]).1.flag cpu1 =
      vipiAllUnmasked.flag cpu1 ||| (1 <<< 3)) ∧
    ((aic_ipi_send_mask vipiAllMasked 3 [cpu1]).2.1 = 0 ∧
     (aic_ipi_send_mask vipiAllMasked 3 [cpu1]).2.2 = []) ∧
    (aic_ipi_send_mask vipiAllMasked 3 [cpu1]).1.flag cpu1 = vipiAllMasked.flag cpu1 :=
  ⟨(C2_send_respects_mask vipiAllUnmasked 3 [cpu1]).2.2.2.1 cpu1 (by decide) (by decide),
   ⟨((C2_send_respects_mask vipiAllMasked 3 [cpu1]).2.2.2.2.1
      (fun q _ => show (0 : Nat) &&& (1 <<< 3) = 0 by decide)).1,
    ((C2_send_respects_mask vipiAllMasked 3 [cpu1]).2.2.2.2.1
      (fun q _ => show (0 : Nat) &&& (1 <<< 3) = 0 by decide)).2.1⟩,
   ((C2_send_respects_mask vipiAllMasked 3 [cpu1]).2.2.2.2.1
      (fun q _ => show (0 : Nat) &&& (1 <<< 3) = 0 by decide)).2.2 cpu1⟩

theorem send_mask_mask (st : VipiState) (c : Nat)
    (targets : List (Fin AIC_MAX_CPUS)) :
    (aic_ipi_send_mask st c targets).1.mask = st.mask :=
  (sendFold_spec c targets st 0).1

theorem send_mask_flag (st : VipiState) (c : Nat)
    (targets : List (Fin AIC_MAX_CPUS)) (q : Fin AIC_MAX_CPUS) :
    (aic_ipi_send_mask st c targets).1.flag q =
      if q ∈ targets ∧ st.mask q &&& (1 <<< c) ≠ 0
      then st.flag q ||| (1 <<< c) else st.flag q :=
  (sendFold_spec c targets st 0).2.1 q

/-- Bit `i` of a CPU's flag word after a sequence of sends is its initial
value ORed with the accumulated contributions of the sends that targeted
this CPU on channel `i` while the channel was unmasked. -/
theorem sendSeq_flag_testBit (L : List (Nat × List (Fin AIC_MAX_CPUS))) :
    ∀ (st : VipiState) (t : Fin AIC_MAX_CPUS) (i : Nat),
      ((sendSeq st L).flag t).testBit i =
        ((st.flag t).testBit i ||
          L.any (fun p => decide (p.1 = i) && decide (t ∈ p.2) &&
            decide (st.mask t &&& (1 <<< p.1) ≠ 0))) := by
  induction L with
  | nil =>
    intro st t i
    simp [sendSeq]
  | cons p ps ih =>
    intro st t i
    show ((sendSeq (aic_ipi_send_mask st p.1 p.2).1 ps).flag t).testBit i = _
    rw [ih, send_mask_mask, send_mask_flag, List.any_cons]
    by_cases hcond : t ∈ p.2 ∧ st.mask t &&& (1 <<< p.1) ≠ 0
    · rw [if_pos hcond, Nat.testBit_or, testBit_one_shiftLeft]
      have h1 : decide (t ∈ p.2) = true := decide_eq_true hcond.1
      have h2 : decide (st.mask t &&& (1 <<< p.1) ≠ 0) = true := decide_eq_true hcond.2
      rw [h1, h2, Bool.and_true, Bool.and_true, Bool.or_assoc]
    · rw [if_neg hcond]
      have hp : (decide (p.1 = i) && decide (t ∈ p.2) &&
          decide (st.mask t &&& (1 <<< p.1) ≠ 0)) = false := by
        by_cases hA : t ∈ p.2
        · have hB : ¬ (st.mask t &&& (1 <<< p.1) ≠ 0) := fun hB => hcond ⟨hA, hB⟩
          simp [hB]
        · simp [hA]
      rw [hp, Bool.false_or]

/-- Each drained channel is dispatched once per set flag bit. -/
theorem handle_ipi_count (F i : Nat) :
    (aic_handle_ipi F).1.count i =
      if i < AIC_NR_SWIPI ∧ F.testBit i = true then 1 else 0 := by
  show ((List.range AIC_NR_SWIPI).filter (fun j => F.testBit j)).count i = _
  by_cases h : i < AIC_NR_SWIPI ∧ F.testBit i = true
  · rw [if_pos h]
    apply List.count_eq_one_of_mem ((List.nodup_range _).filter _)
    exact List.mem_filter.2 ⟨List.mem_range.2 h.1, h.2⟩
  · rw [if_neg h]
    apply List.count_eq_zero_of_not_mem
    intro hmem
    obtain ⟨hr, hb⟩ := List.mem_filter.1 hmem
    exact h ⟨List.mem_range.1 hr, hb⟩

/-- C1: after any sequence of sends accumulates into a target CPU's flag
word, one drain atomically exchanges the word with zero, dispatches each
logical channel whose bit is set exactly once (and no clear channel), the
flag word is zero afterwards, and a second drain dispatches nothing. -/
theorem C1_drain_exactly_once (st : VipiState)
    (L : List (Nat × List (Fin AIC_MAX_CPUS))) (t : Fin AIC_MAX_CPUS) :
    (∀ i : Nat,
      (aic_handle_ipi ((sendSeq st L).flag t)).1.count i =
        if i < AIC_NR_SWIPI ∧ ((sendSeq st L).flag t).testBit i = true
        then 1 else 0) ∧
    (∀ i : Nat, ((sendSeq st L).flag t).testBit i =
      ((st.flag t).testBit i ||
        L.any (fun p => decide (p.1 = i) && decide (t ∈ p.2) &&
          decide (st.mask t &&& (1 <<< p.1) ≠ 0)))) ∧
    (aic_handle_ipi ((sendSeq st L).flag t)).2.1 = 0 ∧
    (aic_handle_ipi ((aic_handle_ipi ((sendSeq st L).flag t)).2.1)).1 = [] := by
  refine ⟨fun i => handle_ipi_count _ i, fun i => sendSeq_flag_testBit L st t i,
    rfl, ?_⟩
  show (aic_handle_ipi 0).1 = []
  decide

/-- Helper `cpumask_first` returns the least set bit when one exists below the
bound: the returned CPU is in range, its bit is set, and all lower bits
are clear. -/
theorem cpumask_first_spec (nr m : Nat)
    (h : ∃ i, i < nr ∧ m.testBit i = true) :
    cpumask_first nr m < nr ∧ m.testBit (cpumask_first nr m) = true ∧
    ∀ j, j < cpumask_first nr m → m.testBit j = false := by
  induction nr with
  | zero =>
    obtain ⟨i, hi, _⟩ := h
    omega
  | succ n ih =>
    by_cases hex : ∃ i, i < n ∧ m.testBit i = true
    · obtain ⟨sp1, sp2, sp3⟩ := ih hex
      have hsome : ((List.range n).find? (fun i => m.testBit i)).isSome := by
        rw [List.find?_isSome]
        obtain ⟨i, hi, hb⟩ := hex
        exact ⟨i, List.mem_range.2 hi, hb⟩
      obtain ⟨a, ha⟩ := Option.isSome_iff_exists.1 hsome
      have heq : cpumask_first (n + 1) m = cpumask_first n m := by
        unfold cpumask_first
        rw [List.range_succ, List.find?_append, ha]
        rfl
      rw [heq]
      exact ⟨Nat.lt_succ_of_lt sp1, sp2, sp3⟩
    · have hn : m.testBit n = true := by
        obtain ⟨i, hi, hb⟩ := h
        have hieq : i = n := by
          by_contra hne
          exact hex ⟨i, by omega, hb⟩
        rwa [hieq] at hb
      have hnone : (List.range n).find? (fun i => m.testBit i) = none := by
        rw [List.find?_eq_none]
        intro x hx hb
        exact hex ⟨x, List.mem_range.1 hx, hb⟩
      have heq : cpumask_first (n + 1) m = n := by
        unfold cpumask_first
        rw [List.range_succ, List.find?_append, hnone]
        simp [hn]
      rw [heq]
      refine ⟨Nat.lt_succ_self _, hn, ?_⟩
      intro j hj
      by_contra hb
      rw [Bool.not_eq_false] at hb
      exact hex ⟨j, hj, hb⟩

/-- C3 counterexample.  First input: `nr_hw = 2`, `hwirq = 0`, requested
mask `{CPU 1}`, online set `{CPU 0}` (empty intersection), `force =
false` — the claim demands an invalid-argument rejection, but the code
returns success.  Second input: `nr_hw = 2`, `hwirq = 2` — outside the
zero-based range `0..1` of the 2 hardware lines — with a valid online
CPU; the claim demands rejection, but the code's `hwirq > nr_hw` test
accepts it. -/
theorem C3_counterexample :
    (aic_irq_set_affinity 2 2 0 2 1 false regs0).1 ≠ -EINVAL ∧
    (aic_irq_set_affinity 2 2 2 1 1 false regs0).1 ≠ -EINVAL := by
  constructor <;> decide

/-- C3 (amended): `set_affinity` returns `-EINVAL` iff the line index
strictly exceeds `nr_hw` (index `nr_hw` itself is accepted), and rejection
changes no state.  No emptiness check is made on the requested-∩-online
set: on acceptance the code always returns success, writing
`BIT(cpumask_first(...))` of the requested mask (forced) or of
requested ∩ online (otherwise) to the line's target register — when the
intersection is empty that first-CPU value is the out-of-range
`nr_cpu_ids`.  When a requested CPU exists below the bound,
`cpumask_first` picks the least one, even if offline in the forced
case. -/
theorem C3_set_affinity_amended (nr_hw nr_cpu_ids hwirq mask_val online : Nat)
    (force : Bool) (s : AicRegs) :
    ((aic_irq_set_affinity nr_hw nr_cpu_ids hwirq mask_val online force s).1 =
        -EINVAL ↔ hwirq > nr_hw) ∧
    (hwirq > nr_hw →
      aic_irq_set_affinity nr_hw nr_cpu_ids hwirq mask_val online force s =
        (-EINVAL, s, none)) ∧
    (hwirq ≤ nr_hw →
      ((aic_irq_set_affinity nr_hw nr_cpu_ids hwirq mask_val online force s).1 =
          IRQ_SET_MASK_OK ∧
       (aic_irq_set_affinity nr_hw nr_cpu_ids hwirq mask_val online force s).2.1.maskWord
          = s.maskWord ∧
       (aic_irq_set_affinity nr_hw nr_cpu_ids hwirq mask_val online force s).2.1.swWord
          = s.swWord ∧
       (aic_irq_set_affinity nr_hw nr_cpu_ids hwirq mask_val online force s).2.1.targetCpu hwirq
          = 1 <<< (if force then cpumask_first nr_cpu_ids mask_val
                   else cpumask_first nr_cpu_ids (mask_val &&& online)) ∧
       (∀ y, y ≠ hwirq →
         (aic_irq_set_affinity nr_hw nr_cpu_ids hwirq mask_val online force s).2.1.targetCpu y
            = s.targetCpu y) ∧
       (aic_irq_set_affinity nr_hw nr_cpu_ids hwirq mask_val online force s).2.2
          = some (if force then cpumask_first nr_cpu_ids mask_val
                  else cpumask_first nr_cpu_ids (mask_val &&& online)))) ∧
    (∀ nr m : Nat, (∃ i, i < nr ∧ m.testBit i = true) →
      m.testBit (cpumask_first nr m) = true ∧
      ∀ j, j < cpumask_first nr m → m.testBit j = false) := by
  refine ⟨?_, ?_, ?_, fun nr m hex => ⟨(cpumask_first_spec nr m hex).2.1,
    (cpumask_first_spec nr m hex).2.2⟩⟩
  · unfold aic_irq_set_affinity
    by_cases h : hwirq > nr_hw
    · simp [h]
    · simp [h, cpumask_any_and]
      show ¬ (IRQ_SET_MASK_OK = -EINVAL)
      decide
  · intro h
    unfold aic_irq_set_affinity
    rw [if_pos h]
  · intro h
    unfold aic_irq_set_affinity
    rw [if_neg (by omega)]
    cases force with
    | true =>
      refine ⟨rfl, rfl, rfl, ?_, ?_, rfl⟩
      · show Function.update s.targetCpu hwirq (1 <<< cpumask_first nr_cpu_ids mask_val) hwirq = _
        rw [Function.update_same]
        rfl
      · intro y hy
        show Function.update s.targetCpu hwirq (1 <<< cpumask_first nr_cpu_ids mask_val) y = _
        rw [Function.update_noteq hy]
    | false =>
      refine ⟨rfl, rfl, rfl, ?_, ?_, rfl⟩
      · show Function.update s.targetCpu hwirq
          (1 <<< cpumask_any_and nr_cpu_ids mask_val online) hwirq = _
        rw [Function.update_same]
        rfl
      · intro y hy
        show Function.update s.targetCpu hwirq
          (1 <<< cpumask_any_and nr_cpu_ids mask_val online) y = _
        rw [Function.update_noteq hy]

/-- C3 witness: a rejected out-of-range request leaves state untouched; an
accepted forced request succeeds; `cpumask_first` picks the least
requested CPU. -/
theorem C3_set_affinity_amended_witness :
    (aic_irq_set_affinity 1 2 2 3 3 false regs0 = (-EINVAL, regs0, none)) ∧
    ((aic_irq_set_affinity 5 2 3 3 3 true regs0).1 = IRQ_SET_MASK_OK) ∧
    ((2 : Nat).testBit (cpumask_first 2 2) = true) :=
  ⟨(C3_set_affinity_amended 1 2 2 3 3 false regs0).2.1 (by decide),
   ((C3_set_affinity_amended 5 2 3 3 3 true regs0).2.2.1 (by decide)).1,
   ((C3_set_affinity_amended 5 2 3 3 3 true regs0).2.2.2 2 2
      ⟨1, by decide, by decide⟩).1⟩
